import Mathlib

/-!
# Push-to-file: template rendering, content-change detection and the sink factory

A shallow embedding of `pkg/secrets/pushtofile/push_to_writer.go`.

* Go `[]byte` is `List Byte`, Go `string` is `String`, a Go `error` is its message text,
  `nil` errors are `none`.
* The package-level variable `prevFileChecksums` is passed explicitly: every operation that
  reads or writes it takes the current registry and returns the next one.
* Calls to a sink's `Write` are recorded, in order, in the `writes` field of the result.
* `crypto/sha256` is embedded in full (FIPS 180-4) so that digests can be evaluated.
-/

/-- One octet. -/
abbrev Byte := Fin 256

/-! ## `crypto/sha256` -/

namespace sha256

/-- Round constants. -/
def K : List Nat := [
  0x428a2f98, 0x71374491, 0xb5c0fbcf, 0xe9b5dba5, 0x3956c25b, 0x59f111f1, 0x923f82a4, 0xab1c5ed5,
  0xd807aa98, 0x12835b01, 0x243185be, 0x550c7dc3, 0x72be5d74, 0x80deb1fe, 0x9bdc06a7, 0xc19bf174,
  0xe49b69c1, 0xefbe4786, 0x0fc19dc6, 0x240ca1cc, 0x2de92c6f, 0x4a7484aa, 0x5cb0a9dc, 0x76f988da,
  0x983e5152, 0xa831c66d, 0xb00327c8, 0xbf597fc7, 0xc6e00bf3, 0xd5a79147, 0x06ca6351, 0x14292967,
  0x27b70a85, 0x2e1b2138, 0x4d2c6dfc, 0x53380d13, 0x650a7354, 0x766a0abb, 0x81c2c92e, 0x92722c85,
  0xa2bfe8a1, 0xa81a664b, 0xc24b8b70, 0xc76c51a3, 0xd192e819, 0xd6990624, 0xf40e3585, 0x106aa070,
  0x19a4c116, 0x1e376c08, 0x2748774c, 0x34b0bcb5, 0x391c0cb3, 0x4ed8aa4a, 0x5b9cca4f, 0x682e6ff3,
  0x748f82ee, 0x78a5636f, 0x84c87814, 0x8cc70208, 0x90befffa, 0xa4506ceb, 0xbef9a3f7, 0xc67178f2]

/-- Truncation to a 32-bit word. -/
def mask (x : Nat) : Nat := x % 2 ^ 32

/-- Right rotation of a 32-bit word. -/
def rotr (x n : Nat) : Nat := (x >>> n) ||| mask (x <<< (32 - n))

def bsig0 (x : Nat) : Nat := rotr x 2 ^^^ rotr x 13 ^^^ rotr x 22

def bsig1 (x : Nat) : Nat := rotr x 6 ^^^ rotr x 11 ^^^ rotr x 25

def ssig0 (x : Nat) : Nat := rotr x 7 ^^^ rotr x 18 ^^^ (x >>> 3)

def ssig1 (x : Nat) : Nat := rotr x 17 ^^^ rotr x 19 ^^^ (x >>> 10)

def ch (x y z : Nat) : Nat := (x &&& y) ^^^ ((x ^^^ 0xffffffff) &&& z)

def maj (x y z : Nat) : Nat := (x &&& y) ^^^ (x &&& z) ^^^ (y &&& z)

/-- The eight working words of the hash state. -/
structure State where
  a : Nat
  b : Nat
  c : Nat
  d : Nat
  e : Nat
  f : Nat
  g : Nat
  h : Nat

/-- Initial hash value. -/
def init : State :=
  ⟨0x6a09e667, 0xbb67ae85, 0x3c6ef372, 0xa54ff53a, 0x510e527f, 0x9b05688c, 0x1f83d9ab, 0x5be0cd19⟩

/-- Big-endian 32-bit words of a block. -/
def words : List Byte → List Nat
  | b0 :: b1 :: b2 :: b3 :: rest =>
      (b0.val * 2 ^ 24 + b1.val * 2 ^ 16 + b2.val * 2 ^ 8 + b3.val) :: words rest
  | _ => []

/-- Extends the message schedule by `n` words; the schedule is kept newest word first. -/
def extend : Nat → List Nat → List Nat
  | 0, rev => rev
  | n + 1, rev =>
      extend n
        (mask (ssig1 (rev.getD 1 0) + rev.getD 6 0 + ssig0 (rev.getD 14 0) + rev.getD 15 0) :: rev)

/-- The 64-word message schedule of a 64-byte block. -/
def schedule (block : List Byte) : List Nat := (extend 48 (words block).reverse).reverse

/-- One round of the compression function, on a round constant and a schedule word. -/
def round (s : State) (kw : Nat × Nat) : State :=
  let t1 := s.h + bsig1 s.e + ch s.e s.f s.g + kw.1 + kw.2
  let t2 := bsig0 s.a + maj s.a s.b s.c
  ⟨mask (t1 + t2), s.a, s.b, s.c, mask (s.d + t1), s.e, s.f, s.g⟩

/-- The compression function on one block. -/
def compress (s : State) (block : List Byte) : State :=
  let t := (K.zip (schedule block)).foldl round s
  ⟨mask (s.a + t.a), mask (s.b + t.b), mask (s.c + t.c), mask (s.d + t.d),
   mask (s.e + t.e), mask (s.f + t.f), mask (s.g + t.g), mask (s.h + t.h)⟩

/-- The low `k` octets of `n`, most significant first. -/
def be (n : Nat) : Nat → List Byte
  | 0 => []
  | k + 1 => Fin.ofNat (n >>> (8 * k)) :: be n k

/-- Message padding: a one bit, zeros up to 56 modulo 64, and the bit length on 8 octets. -/
def pad (msg : List Byte) : List Byte :=
  msg ++ (0x80 : Byte) :: List.replicate ((119 - msg.length % 64) % 64) (0 : Byte)
    ++ be (8 * msg.length) 8

/-- Folds the compression function over `n` successive 64-byte blocks. -/
def blocks : Nat → State → List Byte → State
  | 0, s, _ => s
  | n + 1, s, bs => blocks n (compress s (bs.take 64)) (bs.drop 64)

/-- The digest of a message, as produced by `h := sha256.New(); h.Write(msg); h.Sum(nil)`. -/
def Sum (msg : List Byte) : List Byte :=
  let s := blocks ((pad msg).length / 64) init (pad msg)
  be s.a 4 ++ be s.b 4 ++ be s.c 4 ++ be s.d 4 ++ be s.e 4 ++ be s.f 4 ++ be s.g 4 ++ be s.h 4

end sha256

namespace pushtofile

/-- A Go `error`, identified with its message; `Option Error` is a possibly-nil error. -/
abbrev Error := String

/-- The source's `type checksum []byte`. -/
abbrev checksum := List Byte

/-- A Go `map[string]V`, as the lookup function of its entries. -/
abbrev GoMap (V : Type) := String → Option V

/-- The empty map `map[string]V{}`. -/
def GoMap.empty {V : Type} : GoMap V := fun _ => none

/-- The assignment `m[k] = v`. -/
def GoMap.set {V : Type} (m : GoMap V) (k : String) (v : V) : GoMap V :=
  fun k' => if k' = k then some v else m k'

/-- An `io.Writer` as `writeContent` sees it: either the distinguished `io.Discard`, or any other
sink, given by the error result of its `Write` on a byte slice (the byte count that `Write` also
returns is ignored by the source). A sink whose behaviour changes over time is modelled by
passing a different value at each call. -/
inductive Writer where
  | Discard : Writer
  | sink (Write : List Byte → Option Error) : Writer

/-- The error returned by `writer.Write(p)`; `io.Discard` accepts everything. -/
def Writer.Write : Writer → List Byte → Option Error
  | .Discard, _ => none
  | .sink w, p => w p

/-- Message codes of the `messages` package that the gate logs. -/
inductive messages where
  | CSPFK018I
  deriving DecidableEq, Repr

/-- What a call leaves behind: the returned error, the registry `prevFileChecksums` after the
call, the arguments of the calls made to the sink's `Write` (in order), and the messages
logged through `log.Info`. -/
structure Result where
  err : Option Error
  prevFileChecksums : GoMap checksum
  writes : List (List Byte)
  logs : List messages

/-- The source's `fileChecksum`: the digest of the buffer's bytes; hashing never fails. -/
def fileChecksum (buf : List Byte) : checksum × Option Error :=
  (sha256.Sum buf, none)

/-- The source's `contentHasChanged`. -/
def contentHasChanged (prevFileChecksums : GoMap checksum) (groupName : String)
    (fileChecksum : checksum) : Bool :=
  match prevFileChecksums groupName with
  | some prevChecksum => if fileChecksum = prevChecksum then false else true
  | none => true

/-- The source's `writeContent`. -/
def writeContent (writer : Writer) (fileContent : List Byte) (groupName : String)
    (prevFileChecksums : GoMap checksum) : Result :=
  match writer with
  | .Discard =>
      ⟨Writer.Discard.Write fileContent, prevFileChecksums, [fileContent], []⟩
  | .sink w =>
      let checksum := (fileChecksum fileContent).1
      if !contentHasChanged prevFileChecksums groupName checksum then
        ⟨none, prevFileChecksums, [], [messages.CSPFK018I]⟩
      else
        match (Writer.sink w).Write fileContent with
        | some err => ⟨some err, prevFileChecksums, [fileContent], []⟩
        | none => ⟨none, prevFileChecksums.set groupName checksum, [fileContent], []⟩

/-- A sink that accepts every write. -/
def okSink : Writer := .sink fun _ => none

/-- A sink that rejects every write with the given error. -/
def failSink (e : Error) : Writer := .sink fun _ => some e

/-! ## Runs of the gate -/

/-- One invocation of `writeContent`: its three arguments. -/
structure Call where
  writer : Writer
  fileContent : List Byte
  groupName : String

/-- One call of a sink's `Write` made on behalf of a group: the bytes handed over, whether the
sink was `io.Discard`, and the error `Write` returned. -/
structure WriteEvent where
  groupName : String
  content : List Byte
  discard : Bool
  err : Option Error

/-- The process as far as the gate is concerned: the registry and the `Write` calls made so far,
most recent first. -/
structure Process where
  prevFileChecksums : GoMap checksum
  trace : List WriteEvent

/-- Process start: `var prevFileChecksums = map[string]checksum{}` and nothing written. -/
def Process.start : Process := ⟨GoMap.empty, []⟩

/-- Whether the writer is `io.Discard`. -/
def Writer.isDiscard : Writer → Bool
  | .Discard => true
  | .sink _ => false

/-- Runs one invocation of `writeContent` and records the `Write` calls it made. -/
def Process.step (p : Process) (c : Call) : Process :=
  let r := writeContent c.writer c.fileContent c.groupName p.prevFileChecksums
  ⟨r.prevFileChecksums,
   (r.writes.map fun bytes =>
      (⟨c.groupName, bytes, c.writer.isDiscard, c.writer.Write bytes⟩ : WriteEvent)).reverse
     ++ p.trace⟩

/-- Runs a sequence of invocations from process start. -/
def run (calls : List Call) : Process := calls.foldl Process.step Process.start

/-- The content most recently written for a group: that of the latest `Write` call for the
group that returned no error, whatever the sink. -/
def lastWritten (G : String) (trace : List WriteEvent) : Option (List Byte) :=
  (trace.find? fun ev => decide (ev.groupName = G) && ev.err.isNone).map (·.content)

/-- The content most recently committed for a group: that of the latest `Write` call for the
group that returned no error on a sink other than `io.Discard`. -/
def lastCommitted (G : String) (trace : List WriteEvent) : Option (List Byte) :=
  (trace.find? fun ev => decide (ev.groupName = G) && ev.err.isNone && !ev.discard).map
    (·.content)

/-- Registry entries are the digests of the last committed contents. -/
def RegistryInv (p : Process) : Prop :=
  ∀ G : String, p.prevFileChecksums G = (lastCommitted G p.trace).map sha256.Sum

/-! ## Templates -/

/-- Modelled from the spec: the `Secret` record of the package is declared outside this file;
the spec gives it an `alias` and a `value`, the two fields the source reads. -/
structure Secret where
  Alias : String
  Value : String
  deriving DecidableEq, Repr

/-- The source's `templateData`: the form in which secrets are presented to templates. -/
structure templateData where
  SecretsArray : List Secret
  SecretsMap : GoMap Secret

/-- A function callable from a template, on one string argument: it returns a string or
panics with a message. -/
abbrev TemplateFunc := String → Except String String

/-- A `template.FuncMap`: function names with their implementations. -/
abbrev FuncMap := List (String × TemplateFunc)

/-- What the source takes from outside this file: the `text/template` engine, the two base64
helpers of the package, and the Unicode tables behind `strconv.IsPrint`. Every definition and
theorem below is stated for an arbitrary such environment.

The engine is given by its parser and by the execution of a single top-level node of a parsed
template: executing a template walks the nodes of its root list in order, each node writing its
output to the buffer as it is produced and passing the variables on, until a node fails. What a
node is and what it does with the data is left to the environment, so conditionals, loops, field
access and pipelines are all covered. -/
structure Env where
  /-- A parsed `*template.Template`. -/
  Template : Type
  /-- The result of `template.New(name).Funcs(funcs).Parse(text)`. -/
  Parse : (name : String) → (funcs : FuncMap) → (text : String) → Except Error Template
  /-- A top-level node of a parsed template. -/
  Node : Type
  /-- The variables of an execution. -/
  Vars : Type
  /-- The nodes of the template's root list, `tpl.Root.Nodes`. -/
  Root : Template → List Node
  /-- The variables at the start of an execution on the given data. -/
  vars : Template → templateData → Vars
  /-- The execution of one top-level node: the bytes it writes to the buffer, and then either
  the error that stops the execution or the variables it leaves. -/
  walk : Template → templateData → Node → Vars → List Byte × Except Error Vars
  /-- The package's `b64encTemplateFunc`. -/
  b64encTemplateFunc : TemplateFunc
  /-- The package's `b64decTemplateFunc`. -/
  b64decTemplateFunc : TemplateFunc
  /-- The value of `strconv.IsPrint` on runes above U+00FF. -/
  isPrintWide : Char → Bool

/-- The execution of a list of nodes from the given variables: the bytes written to the buffer
and the error, if one stopped the execution. -/
def Env.walkList (E : Env) (tpl : E.Template) (data : templateData) :
    List E.Node → E.Vars → List Byte × Option Error
  | [], _ => ([], none)
  | n :: rest, v =>
      match E.walk tpl data n v with
      | (out, .error e) => (out, some e)
      | (out, .ok v') =>
          (out ++ (E.walkList tpl data rest v').1, (E.walkList tpl data rest v').2)

/-- The effect of `tpl.Execute(buf, data)` on an empty buffer: the bytes written to the buffer
and the error returned. -/
def Env.Execute (E : Env) (tpl : E.Template) (data : templateData) : List Byte × Option Error :=
  E.walkList tpl data (E.Root tpl) (E.vars tpl data)

/-- The complete rendering of a list of nodes from the given variables: the output of every
node, in order, each node having run to its end; with it, the variables left. There is none when
some node fails. -/
def Env.rendering (E : Env) (tpl : E.Template) (data : templateData) :
    List E.Node → E.Vars → Option (List Byte × E.Vars)
  | [], v => some ([], v)
  | n :: rest, v =>
      match E.walk tpl data n v with
      | (_, .error _) => none
      | (out, .ok v') => (E.rendering tpl data rest v').map fun r => (out ++ r.1, r.2)

/-! ### `%q` formatting (`strconv.Quote`) -/

/-- The digit of `strconv`'s `lowerhex` table for the low four bits of `n`. -/
def lowerhex (n : Nat) : Char := "0123456789abcdef".data.getD (n % 16) '0'

/-- `strconv.IsPrint`: Latin-1 is decided in place, the rest by the Unicode tables. -/
def IsPrint (E : Env) (r : Char) : Bool :=
  if r.toNat ≤ 0xFF then
    if 0x20 ≤ r.toNat ∧ r.toNat ≤ 0x7E then true
    else if 0xA1 ≤ r.toNat ∧ r.toNat ≤ 0xFF then r.toNat ≠ 0xAD
    else false
  else E.isPrintWide r

/-- `strconv.appendEscapedRune` for the double quote, neither ASCII-only nor graphic-only. -/
def appendEscapedRune (E : Env) (r : Char) : List Char :=
  if r = '"' ∨ r = '\\' then ['\\', r]
  else if IsPrint E r then [r]
  else if r.toNat = 0x07 then ['\\', 'a']
  else if r.toNat = 0x08 then ['\\', 'b']
  else if r.toNat = 0x0C then ['\\', 'f']
  else if r.toNat = 0x0A then ['\\', 'n']
  else if r.toNat = 0x0D then ['\\', 'r']
  else if r.toNat = 0x09 then ['\\', 't']
  else if r.toNat = 0x0B then ['\\', 'v']
  else if r.toNat < 0x20 ∨ r.toNat = 0x7F then
    ['\\', 'x', lowerhex (r.toNat >>> 4), lowerhex r.toNat]
  else if r.toNat < 0x10000 then
    ['\\', 'u', lowerhex (r.toNat >>> 12), lowerhex (r.toNat >>> 8), lowerhex (r.toNat >>> 4),
      lowerhex r.toNat]
  else
    ['\\', 'U', lowerhex (r.toNat >>> 28), lowerhex (r.toNat >>> 24), lowerhex (r.toNat >>> 20),
      lowerhex (r.toNat >>> 16), lowerhex (r.toNat >>> 12), lowerhex (r.toNat >>> 8),
      lowerhex (r.toNat >>> 4), lowerhex r.toNat]

/-- The text produced by the verb `%q` for a string: `strconv.Quote`. Strings here are
sequences of Unicode scalar values, so the branch for invalid UTF-8 does not arise. -/
def Quote (E : Env) (s : String) : String :=
  ⟨'"' :: (s.data.flatMap (appendEscapedRune E) ++ ['"'])⟩

/-- A string contains another as a substring. -/
def Contains (s sub : String) : Prop := sub.data <:+: s.data

instance (s sub : String) : Decidable (Contains s sub) :=
  inferInstanceAs (Decidable (sub.data <:+: s.data))

/-- The characters that `%q` reproduces as they are. -/
def Verbatim (E : Env) (s : String) : Prop :=
  ∀ c ∈ s.data, c ≠ '"' ∧ c ≠ '\\' ∧ IsPrint E c = true

instance (E : Env) (s : String) : Decidable (Verbatim E s) :=
  inferInstanceAs (Decidable (∀ c ∈ s.data, c ≠ '"' ∧ c ≠ '\\' ∧ IsPrint E c = true))

/-! ### `pushToWriter` -/

/-- The mapping view built by the loop at the head of `pushToWriter`:
`for _, s := range groupSecrets { secretsMap[s.Alias] = s }`. -/
def secretsMap (groupSecrets : List Secret) : GoMap Secret :=
  groupSecrets.foldl (fun m s => m.set s.Alias s) GoMap.empty

/-- The `secret` template function that `pushToWriter` closes over `secretsMap`. -/
def secret (E : Env) (secretsMap : GoMap Secret) : TemplateFunc := fun alias_ =>
  match secretsMap alias_ with
  | some v => .ok v.Value
  | none =>
      .error ("secret alias " ++ Quote E alias_ ++ " not present in specified secrets for group")

/-- The function map that `pushToWriter` attaches to the template. -/
def funcs (E : Env) (secretsMap : GoMap Secret) : FuncMap :=
  [("secret", secret E secretsMap),
   ("b64enc", E.b64encTemplateFunc),
   ("b64dec", E.b64decTemplateFunc)]

/-- The `tplData` value that `pushToWriter` renders the template against. -/
def tplData (groupSecrets : List Secret) : templateData :=
  ⟨groupSecrets, secretsMap groupSecrets⟩

/-- The source's `renderFile`: a fresh buffer, executed into, returned with the error. -/
def renderFile (E : Env) (tpl : E.Template) (tplData : templateData) :
    List Byte × Option Error :=
  let buf : List Byte := []
  let out := E.Execute tpl tplData
  (buf ++ out.1, out.2)

/-- The source's `pushToWriter`. -/
def pushToWriter (E : Env) (writer : Writer) (groupName : String) (groupTemplate : String)
    (groupSecrets : List Secret) (prevFileChecksums : GoMap checksum) : Result :=
  match E.Parse groupName (funcs E (secretsMap groupSecrets)) groupTemplate with
  | .error err => ⟨some err, prevFileChecksums, [], []⟩
  | .ok tpl =>
      match renderFile E tpl (tplData groupSecrets) with
      | (_, some err) => ⟨some err, prevFileChecksums, [], []⟩
      | (fileContent, none) => writeContent writer fileContent groupName prevFileChecksums

/-! ## Templates that are executed explicitly

For templates made only of literal text and of actions that call a function of the template's
function map on a string literal or on another such call in parentheses, as in
`user={{secret "user"}}` or `{{b64enc (secret "k")}}`, parsing and execution are written out
below as `text/template` performs them. `fragment.env lib` is the environment `lib` with these
templates handled explicitly; every other template is passed to `lib`. -/

/-- The bytes of a one-rune Go string: UTF-8. -/
def utf8Char (c : Char) : List Byte :=
  if c.toNat < 0x80 then [Fin.ofNat c.toNat]
  else if c.toNat < 0x800 then
    [Fin.ofNat (0xC0 + c.toNat / 64), Fin.ofNat (0x80 + c.toNat % 64)]
  else if c.toNat < 0x10000 then
    [Fin.ofNat (0xE0 + c.toNat / 4096), Fin.ofNat (0x80 + c.toNat / 64 % 64),
      Fin.ofNat (0x80 + c.toNat % 64)]
  else
    [Fin.ofNat (0xF0 + c.toNat / 262144), Fin.ofNat (0x80 + c.toNat / 4096 % 64),
      Fin.ofNat (0x80 + c.toNat / 64 % 64), Fin.ofNat (0x80 + c.toNat % 64)]

/-- The bytes of a Go string, `[]byte(s)`. -/
def utf8 (s : String) : List Byte := s.data.flatMap utf8Char

namespace fragment

/-- A command of an action: a string literal, kept as written together with its value, or a
function applied to one argument. A call records the line of the template text it starts on and
the number of bytes that precede it on that line. -/
inductive Pipe where
  | str (quoted : String) (value : String)
  | call (line : Nat) (col : Nat) (fn : String) (arg : Pipe)
  deriving Repr

/-- A node of a parsed template. -/
inductive Node where
  | text (s : String)
  | action (p : Pipe)
  deriving Repr

/-- A parsed template with the functions attached to it. -/
structure Template where
  name : String
  funcs : FuncMap
  nodes : List Node

/-- Lookup of a function by name. -/
def lookup (funcs : FuncMap) (fn : String) : Option TemplateFunc :=
  (funcs.find? fun entry => entry.1 = fn).map (·.2)

/-- The text of a command, as the parse tree prints it. -/
def Pipe.text : Pipe → String
  | .str quoted _ => quoted
  | .call _ _ fn (.str quoted _) => fn ++ " " ++ quoted
  | .call _ _ fn arg => fn ++ " (" ++ arg.text ++ ")"

/-- Evaluation of a command; a panic of the called function becomes the error of the execution,
which names the template, the place and text of the command and the function. -/
def eval (lib : Env) (name : String) (funcs : FuncMap) : Pipe → Except Error String
  | .str _ value => .ok value
  | .call line col fn arg =>
      match eval lib name funcs arg with
      | .error e => .error e
      | .ok v =>
          match lookup funcs fn with
          | none =>
              .error ("template: " ++ name ++ ":" ++ toString line ++ ":" ++ toString col
                ++ ": executing " ++ Quote lib name ++ " at <" ++ fn ++ ">: "
                ++ Quote lib fn ++ " is not a defined function")
          | some f =>
              match f v with
              | .ok r => .ok r
              | .error msg =>
                  .error ("template: " ++ name ++ ":" ++ toString line ++ ":" ++ toString col
                    ++ ": executing " ++ Quote lib name ++ " at <"
                    ++ (Pipe.call line col fn arg).text ++ ">: error calling " ++ fn ++ ": "
                    ++ msg)

/-- Execution of one node: text is written as it is; an action is evaluated and, when that
succeeds, its value is written. -/
def walkNode (lib : Env) (tpl : Template) : Node → List Byte × Option Error
  | .text s => (utf8 s, none)
  | .action p =>
      match eval lib tpl.name tpl.funcs p with
      | .error e => ([], some e)
      | .ok v => (utf8 v, none)

/-- The words the lexer reads as keywords or constants rather than as function names. -/
def keywords : List String :=
  ["block", "break", "continue", "define", "else", "end", "if", "range", "nil", "template",
    "with", "true", "false"]

/-- Reads a string literal after its opening quote: the literal as written (without the opening
quote), its value, and what follows it. Escapes other than `\"`, `\\`, `\n` and `\t` are not
handled here. -/
def lexStr : Nat → List Char → List Char → List Char → Option (List Char × List Char × List Char)
  | 0, _, _, _ => none
  | _ + 1, [], _, _ => none
  | n + 1, c :: rest, raw, val =>
      if c = '"' then some ((c :: raw).reverse, val.reverse, rest)
      else if c = '\n' then none
      else if c = '\\' then
        match rest with
        | [] => none
        | d :: rest' =>
            if d = '"' then lexStr n rest' (d :: c :: raw) ('"' :: val)
            else if d = '\\' then lexStr n rest' (d :: c :: raw) ('\\' :: val)
            else if d = 'n' then lexStr n rest' (d :: c :: raw) ('\n' :: val)
            else if d = 't' then lexStr n rest' (d :: c :: raw) ('\t' :: val)
            else none
      else lexStr n rest (c :: raw) (c :: val)

/-- The number of bytes of a list of characters. -/
def byteLen (cs : List Char) : Nat := (cs.flatMap utf8Char).length

/-- Reads a call at the given line and column: a name of the function map, spaces, and a string
literal or a call in parentheses. Returns the call, the column after it and what follows. -/
def parseCall (funcs : FuncMap) (line : Nat) :
    Nat → Nat → List Char → Option (Pipe × Nat × List Char)
  | 0, _, _ => none
  | n + 1, col, cs =>
      let name := cs.takeWhile Char.isAlphanum
      let rest := cs.dropWhile Char.isAlphanum
      let spaces := rest.takeWhile (· = ' ')
      let col1 := col + name.length + spaces.length
      if cs.head?.any Char.isAlpha ∧ rest.head? = some ' ' ∧ (⟨name⟩ : String) ∉ keywords
          ∧ (lookup funcs ⟨name⟩).isSome then
        match rest.dropWhile (· = ' ') with
        | [] => none
        | c :: body =>
            if c = '"' then
              match lexStr (body.length + 1) body ['"'] [] with
              | none => none
              | some (raw, val, rest2) =>
                  some (.call line col ⟨name⟩ (.str ⟨raw⟩ ⟨val⟩), col1 + byteLen raw, rest2)
            else if c = '(' then
              match parseCall funcs line n (col1 + 1 + (body.takeWhile (· = ' ')).length)
                  (body.dropWhile (· = ' ')) with
              | none => none
              | some (inner, col3, rest3) =>
                  match rest3.dropWhile (· = ' ') with
                  | [] => none
                  | d :: rest5 =>
                      if d = ')' then
                        some (.call line col ⟨name⟩ inner,
                          col3 + (rest3.takeWhile (· = ' ')).length + 1, rest5)
                      else none
            else none
      else none

/-- Reads the inside of an action that starts at the given line and column: spaces, then a
string literal or a call, then spaces. -/
def parseAction (funcs : FuncMap) (line col : Nat) (inner : List Char) : Option Pipe :=
  match inner.dropWhile (· = ' ') with
  | [] => none
  | c :: body =>
      if c = '"' then
        match lexStr (body.length + 1) body ['"'] [] with
        | none => none
        | some (raw, val, rest) =>
            if rest.all (· = ' ') then some (.str ⟨raw⟩ ⟨val⟩) else none
      else
        match parseCall funcs line (inner.length + 1)
            (col + (inner.takeWhile (· = ' ')).length) (c :: body) with
        | none => none
        | some (p, _, rest) => if rest.all (· = ' ') then some p else none

/-- Splits at the first closing delimiter. -/
def untilClose : List Char → Option (List Char × List Char)
  | [] => none
  | c :: rest =>
      if c = '\x7d' ∧ rest.head? = some '\x7d' then some ([], rest.tail)
      else (untilClose rest).map fun r => (c :: r.1, r.2)

/-- A text node for the characters accumulated so far, if any. -/
def flush (acc : List Char) : List Node :=
  if acc.isEmpty then [] else [.text ⟨acc.reverse⟩]

/-- Splits template text into text and action nodes, keeping track of the line and of the bytes
read on it; `acc` holds pending text, reversed. -/
def parseNodes (funcs : FuncMap) :
    Nat → Nat → Nat → List Char → List Char → Option (List Node)
  | 0, _, _, _, _ => none
  | _ + 1, _, _, [], acc => some (flush acc)
  | n + 1, line, col, c :: rest, acc =>
      if c = '\x7b' ∧ rest.head? = some '\x7b' then
        match untilClose rest.tail with
        | none => none
        | some (inner, rest') =>
            match parseAction funcs line (col + 2) inner with
            | none => none
            | some p =>
                match parseNodes funcs n line (col + 2 + byteLen inner + 2) rest' [] with
                | none => none
                | some nodes => some (flush acc ++ .action p :: nodes)
      else if c = '\n' then parseNodes funcs n (line + 1) 0 rest (c :: acc)
      else parseNodes funcs n line (col + byteLen [c]) rest (c :: acc)

/-- Parsing of the templates handled here; `none` for every other text, and for template names
with a percent sign, whose error texts are not written out here. -/
def Parse (name : String) (funcs : FuncMap) (text : String) : Option Template :=
  if '%' ∈ name.data then none
  else (parseNodes funcs (text.data.length + 1) 1 0 text.data []).map fun nodes =>
    ⟨name, funcs, nodes⟩

/-- The environment `lib` with the templates above parsed and executed explicitly. -/
def env (lib : Env) : Env where
  Template := Template ⊕ lib.Template
  Parse := fun name funcs text =>
    match Parse name funcs text with
    | some tpl => .ok (.inl tpl)
    | none =>
        match lib.Parse name funcs text with
        | .ok tpl => .ok (.inr tpl)
        | .error e => .error e
  Node := Node ⊕ lib.Node
  Vars := Option lib.Vars
  Root := fun tpl =>
    match tpl with
    | .inl t => t.nodes.map .inl
    | .inr t => (lib.Root t).map .inr
  vars := fun tpl data =>
    match tpl with
    | .inl _ => none
    | .inr t => some (lib.vars t data)
  walk := fun tpl data node v =>
    match tpl, node, v with
    | .inl t, .inl n, _ =>
        match walkNode lib t n with
        | (out, some e) => (out, .error e)
        | (out, none) => (out, .ok none)
    | .inr t, .inr n, some v' =>
        match lib.walk t data n v' with
        | (out, .error e) => (out, .error e)
        | (out, .ok v'') => (out, .ok (some v''))
    | _, _, _ => ([], .error "node of another template")
  b64encTemplateFunc := lib.b64encTemplateFunc
  b64decTemplateFunc := lib.b64decTemplateFunc
  isPrintWide := lib.isPrintWide

end fragment

/-- An environment with no template engine, no base64 helpers and no Unicode tables behind it:
it parses nothing, its helpers panic, and no rune above U+00FF counts as printable. It stands
where a closed environment is needed and what lies outside the templates executed explicitly
plays no part. -/
def noLibrary : Env where
  Template := Unit
  Parse := fun name _ _ => .error ("template: " ++ name ++ ": no template engine")
  Node := Unit
  Vars := Unit
  Root := fun _ => []
  vars := fun _ _ => ()
  walk := fun _ _ _ _ => ([], .ok ())
  b64encTemplateFunc := fun _ => .error "no base64 helper"
  b64decTemplateFunc := fun _ => .error "no base64 helper"
  isPrintWide := fun _ => false

/-! ## The sink factory -/

/-- An `os.FileMode`. -/
abbrev FileMode := Nat

/-- The flags `openFileAsWriteCloser` opens the target with. -/
inductive OpenFlag where
  | O_WRONLY
  | O_CREATE
  deriving DecidableEq, Repr

/-- The operations `openFileAsWriteCloser` performs on the file system. -/
inductive FileOp where
  | MkdirAll (dir : String) (perm : FileMode)
  | OpenFile (path : String) (flags : List OpenFlag) (perm : FileMode)
  | Close (path : String)
  | NewAtomicWriter (path : String) (perm : FileMode)
  deriving DecidableEq, Repr

/-- An `*os.PathError`: the operation, the path it was applied to, and the underlying error. -/
structure PathError where
  Op : String
  Path : String
  Err : Error
  deriving DecidableEq, Repr

/-- The text of a path error, as `(*PathError).Error` builds it. -/
def PathError.Error (e : PathError) : Error := e.Op ++ " " ++ e.Path ++ ": " ++ e.Err

/-- The file system and the atomic-writer package, as far as the factory uses them: operations
on a state `σ`, each returning its outcome and the state it leaves. `W` is the type of the
atomic writers. -/
structure FileSystem (σ W : Type) where
  /-- The failure of `os.MkdirAll`, if any: the directory that could not be made and the error
  of the system call, which `os.MkdirAll` returns as a path error of operation `mkdir`. -/
  MkdirAll : String → FileMode → σ → Option (String × Error) × σ
  /-- The failure of `os.OpenFile`, if any: the error of the system call, which `os.OpenFile`
  returns as a path error of operation `open` on the name it was given. The file it returns
  otherwise is only closed. -/
  OpenFile : String → List OpenFlag → FileMode → σ → Option Error × σ
  /-- `Close` on the file returned by `os.OpenFile`; its result is ignored. -/
  Close : String → σ → σ
  /-- `atomicwriter.NewAtomicWriter`. -/
  NewAtomicWriter : String → FileMode → σ → Except Error W × σ

/-- `os.ModePerm`. -/
def ModePerm : FileMode := 0o777

/-- The parts of a path between its slashes. -/
def splitSlash : List Char → List (List Char)
  | [] => [[]]
  | c :: rest =>
      if c = '/' then [] :: splitSlash rest
      else
        match splitSlash rest with
        | [] => [[c]]
        | part :: parts => (c :: part) :: parts

/-- One step of `filepath.Clean`: the elements kept so far, last first, after one more element
of the path. Empty elements and `.` are dropped; `..` removes the element before it, is dropped
at the root, and is kept otherwise. -/
def cleanStep (rooted : Bool) (kept : List (List Char)) (part : List Char) : List (List Char) :=
  if part = [] ∨ part = ['.'] then kept
  else if part = ['.', '.'] then
    match kept with
    | [] => if rooted then [] else [part]
    | top :: below => if top = ['.', '.'] then part :: kept else below
  else part :: kept

/-- `filepath.Clean`, with the slash as separator. -/
def Clean (path : List Char) : List Char :=
  let rooted := path.head? = some '/'
  let kept := ((splitSlash path).foldl (cleanStep rooted) []).reverse
  if rooted then '/' :: List.intercalate ['/'] kept
  else if kept = [] then ['.']
  else List.intercalate ['/'] kept

/-- `filepath.Dir`, with the slash as separator: what precedes the last element of the path,
cleaned. -/
def Dir (path : String) : String :=
  ⟨Clean (path.data.reverse.dropWhile fun c => c ≠ '/').reverse⟩

/-- What a call of the factory leaves behind: the writer or the error, the state of the file
system, and the operations attempted, in order. -/
structure Opened (σ W : Type) where
  result : Except Error W
  state : σ
  ops : List FileOp

/-- The source's `openFileAsWriteCloser`. -/
def openFileAsWriteCloser {σ W : Type} (E : Env) (fs : FileSystem σ W) (path : String)
    (permissions : FileMode) (s : σ) : Opened σ W :=
  let dir := Dir path
  match fs.MkdirAll dir ModePerm s with
  | (some (failed, err), s1) =>
      ⟨.error ("unable to mkdir when opening file to write at " ++ Quote E path ++ ": "
          ++ (PathError.mk "mkdir" failed err).Error),
        s1, [.MkdirAll dir ModePerm]⟩
  | (none, s1) =>
      match fs.OpenFile path [.O_WRONLY, .O_CREATE] permissions s1 with
      | (some err, s2) =>
          ⟨.error ("unable to open file to write at " ++ Quote E path ++ ": "
              ++ (PathError.mk "open" path err).Error),
            s2, [.MkdirAll dir ModePerm, .OpenFile path [.O_WRONLY, .O_CREATE] permissions]⟩
      | (none, s2) =>
          match fs.NewAtomicWriter path permissions (fs.Close path s2) with
          | (.error err, s3) =>
              ⟨.error ("unable to create atomic writer: " ++ err), s3,
                [.MkdirAll dir ModePerm, .OpenFile path [.O_WRONLY, .O_CREATE] permissions,
                  .Close path, .NewAtomicWriter path permissions]⟩
          | (.ok atomicWriter, s3) =>
              ⟨.ok atomicWriter, s3,
                [.MkdirAll dir ModePerm, .OpenFile path [.O_WRONLY, .O_CREATE] permissions,
                  .Close path, .NewAtomicWriter path permissions]⟩

/-! ### A scripted file system -/

/-- A file system whose state is the journal of the operations performed on it and whose three
fallible operations fail as given, when given. Its atomic writers are the paths they are bound
to. -/
def scriptedFS (mkdirErr : Option (String × Error)) (openErr writerErr : Option Error) :
    FileSystem (List FileOp) String where
  MkdirAll := fun dir perm s => (mkdirErr, s ++ [.MkdirAll dir perm])
  OpenFile := fun path flags perm s => (openErr, s ++ [.OpenFile path flags perm])
  Close := fun path s => s ++ [.Close path]
  NewAtomicWriter := fun path perm s =>
    (match writerErr with
      | some e => .error e
      | none => .ok path,
     s ++ [.NewAtomicWriter path perm])

end pushtofile

/-! # Theorems -/

/-! ## The digest -/

namespace sha256

theorem Sum_length (msg : List Byte) : (Sum msg).length = 32 := by
  simp [Sum, be]

/-- The digest of the empty message (FIPS 180-4 test vector). -/
theorem Sum_nil :
    Sum [] = [0xe3, 0xb0, 0xc4, 0x42, 0x98, 0xfc, 0x1c, 0x14, 0x9a, 0xfb, 0xf4, 0xc8, 0x99, 0x6f,
      0xb9, 0x24, 0x27, 0xae, 0x41, 0xe4, 0x64, 0x9b, 0x93, 0x4c, 0xa4, 0x95, 0x99, 0x1b, 0x78,
      0x52, 0xb8, 0x55] := by
  decide

/-- The digest of `abc` (FIPS 180-4 test vector). -/
theorem Sum_abc :
    Sum [0x61, 0x62, 0x63] = [0xba, 0x78, 0x16, 0xbf, 0x8f, 0x01, 0xcf, 0xea, 0x41, 0x41, 0x40,
      0xde, 0x5d, 0xae, 0x22, 0x23, 0xb0, 0x03, 0x61, 0xa3, 0x96, 0x17, 0x7a, 0x9c, 0xb4, 0x10,
      0xff, 0x61, 0xf2, 0x00, 0x15, 0xad] := by
  decide

/-- Two different messages of the same length with the same digest exist: there are more
33-byte messages than digests. -/
theorem exists_collision :
    ∃ C C' : List Byte, C.length = 33 ∧ C'.length = 33 ∧ C ≠ C' ∧ Sum C = Sum C' := by
  have hcard : Fintype.card (Mathlib.Vector Byte 32) < Fintype.card (Mathlib.Vector Byte 33) := by
    simp only [card_vector, Fintype.card_fin]
    norm_num
  obtain ⟨x, y, hne, hxy⟩ := @Fintype.exists_ne_map_eq_of_card_lt (Mathlib.Vector Byte 33)
    (Mathlib.Vector Byte 32) _ _ (fun v => ⟨Sum v.1, Sum_length _⟩) hcard
  exact ⟨x.1, y.1, x.2, y.2, fun h => hne (Subtype.ext h), congrArg Subtype.val hxy⟩

end sha256

namespace pushtofile

/-! ## The write gate -/

theorem contentHasChanged_set (reg : GoMap checksum) (G : String) (d : checksum) :
    contentHasChanged (reg.set G d) G d = false := by
  simp [contentHasChanged, GoMap.set]

theorem contentHasChanged_eq_false_iff (reg : GoMap checksum) (G : String) (d : checksum) :
    contentHasChanged reg G d = false ↔ reg G = some d := by
  unfold contentHasChanged
  cases h : reg G with
  | none => simp
  | some p =>
    by_cases hd : d = p
    · simp [hd]
    · simp [hd]; exact fun h => hd h.symm

theorem writeContent_sink_changed_ok (f : List Byte → Option Error) (C : List Byte) (G : String)
    (reg : GoMap checksum) (hc : contentHasChanged reg G (sha256.Sum C) = true)
    (hf : f C = none) :
    writeContent (.sink f) C G reg = ⟨none, reg.set G (sha256.Sum C), [C], []⟩ := by
  simp [writeContent, fileChecksum, hc, Writer.Write, hf]

theorem writeContent_sink_changed_err (f : List Byte → Option Error) (C : List Byte) (G : String)
    (reg : GoMap checksum) (hc : contentHasChanged reg G (sha256.Sum C) = true)
    (e : Error) (hf : f C = some e) :
    writeContent (.sink f) C G reg = ⟨some e, reg, [C], []⟩ := by
  simp [writeContent, fileChecksum, hc, Writer.Write, hf]

theorem writeContent_sink_unchanged (f : List Byte → Option Error) (C : List Byte) (G : String)
    (reg : GoMap checksum) (hc : contentHasChanged reg G (sha256.Sum C) = false) :
    writeContent (.sink f) C G reg = ⟨none, reg, [], [messages.CSPFK018I]⟩ := by
  simp [writeContent, fileChecksum, hc]

theorem changed_of_wrote (f : List Byte → Option Error) (C : List Byte) (G : String)
    (reg : GoMap checksum) (h : (writeContent (.sink f) C G reg).writes = [C]) :
    contentHasChanged reg G (sha256.Sum C) = true := by
  by_cases hc : contentHasChanged reg G (sha256.Sum C) = true
  · exact hc
  · simp [writeContent, fileChecksum, hc] at h

/-- C1 (skip correctness). For every registry, group name, content and sink other than
`io.Discard` whose `Write` succeeds: when `writeContent` has performed its write, an immediately
following `writeContent` with the same content and group, on any sink other than `io.Discard`,
returns nil, calls `Write` zero times and leaves the registry as the first call left it. -/
theorem writeContent_skip_after_write (reg : GoMap checksum) (G : String) (C : List Byte)
    (w w' : Writer) (hw : w ≠ Writer.Discard) (hw' : w' ≠ Writer.Discard)
    (hok : w.Write C = none) (hwrote : (writeContent w C G reg).writes = [C]) :
    (writeContent w' C G (writeContent w C G reg).prevFileChecksums).err = none ∧
    (writeContent w' C G (writeContent w C G reg).prevFileChecksums).writes = [] ∧
    (writeContent w' C G (writeContent w C G reg).prevFileChecksums).prevFileChecksums
      = (writeContent w C G reg).prevFileChecksums := by
  cases w with
  | Discard => exact absurd rfl hw
  | sink f =>
    cases w' with
    | Discard => exact absurd rfl hw'
    | sink f' =>
      rw [writeContent_sink_changed_ok f C G reg (changed_of_wrote f C G reg hwrote) hok,
        writeContent_sink_unchanged f' C G _ (contentHasChanged_set reg G _)]
      exact ⟨rfl, rfl, rfl⟩

/-- Witness for C1: a first write of three bytes for group `db` into an accepting sink, then
the same content offered to another sink. -/
theorem writeContent_skip_after_write_witness :
    (writeContent okSink [1, 2, 3] "db" GoMap.empty).writes = [[1, 2, 3]] ∧
    (writeContent (failSink "closed") [1, 2, 3] "db"
      (writeContent okSink [1, 2, 3] "db" GoMap.empty).prevFileChecksums).writes = [] :=
  ⟨by decide, (writeContent_skip_after_write GoMap.empty "db" [1, 2, 3] okSink (failSink "closed")
    (by simp [okSink]) (by simp [failSink]) rfl (by decide)).2.1⟩

/-- C2 as stated fails: there are two contents of the same length, different in at least one
byte, such that after a successful write of the first for a group, `writeContent` with the second
returns nil without calling `Write`. -/
theorem change_detection_misses_collision :
    ∃ (C C' : List Byte), C.length = C'.length ∧ C ≠ C' ∧
      okSink.Write C = none ∧
      (writeContent okSink C "db" GoMap.empty).writes = [C] ∧
      (writeContent okSink C' "db"
        (writeContent okSink C "db" GoMap.empty).prevFileChecksums).writes = [] ∧
      (writeContent okSink C' "db"
        (writeContent okSink C "db" GoMap.empty).prevFileChecksums).err = none := by
  obtain ⟨C, C', h, h', hne, heq⟩ := sha256.exists_collision
  have h1 : writeContent okSink C "db" GoMap.empty
      = ⟨none, GoMap.empty.set "db" (sha256.Sum C), [C], []⟩ :=
    writeContent_sink_changed_ok _ C "db" _ rfl rfl
  refine ⟨C, C', by rw [h, h'], hne, rfl, by rw [h1], ?_, ?_⟩
  · rw [h1, okSink, writeContent_sink_unchanged _ C' "db" _
      (by rw [← heq]; exact contentHasChanged_set _ _ _)]
  · rw [h1, okSink, writeContent_sink_unchanged _ C' "db" _
      (by rw [← heq]; exact contentHasChanged_set _ _ _)]

/-- C2 (change detection), amended. For every group name and every two contents: after a
successful write of the first on a sink other than `io.Discard`, `writeContent` with the second
for the same group, on any sink other than `io.Discard`, calls `Write` with the second content
when the SHA-256 digests of the two contents differ, and returns nil without calling `Write` when
the digests are equal. -/
theorem writeContent_rewrites_on_digest_change (reg : GoMap checksum) (G : String)
    (C C' : List Byte) (w w' : Writer) (hw : w ≠ Writer.Discard) (hw' : w' ≠ Writer.Discard)
    (hok : w.Write C = none) (hwrote : (writeContent w C G reg).writes = [C]) :
    (sha256.Sum C' ≠ sha256.Sum C →
      (writeContent w' C' G (writeContent w C G reg).prevFileChecksums).writes = [C']) ∧
    (sha256.Sum C' = sha256.Sum C →
      (writeContent w' C' G (writeContent w C G reg).prevFileChecksums).writes = [] ∧
      (writeContent w' C' G (writeContent w C G reg).prevFileChecksums).err = none) := by
  cases w with
  | Discard => exact absurd rfl hw
  | sink f =>
    cases w' with
    | Discard => exact absurd rfl hw'
    | sink f' =>
      rw [writeContent_sink_changed_ok f C G reg (changed_of_wrote f C G reg hwrote) hok]
      constructor
      · intro hdigest
        have hc : contentHasChanged (reg.set G (sha256.Sum C)) G (sha256.Sum C') = true := by
          cases hb : contentHasChanged (reg.set G (sha256.Sum C)) G (sha256.Sum C') with
          | true => rfl
          | false =>
            rw [contentHasChanged_eq_false_iff] at hb
            simp [GoMap.set] at hb
            exact absurd hb.symm hdigest
        cases hf : f' C' with
        | none => rw [writeContent_sink_changed_ok f' C' G _ hc hf]
        | some e => rw [writeContent_sink_changed_err f' C' G _ hc e hf]
      · intro hdigest
        rw [writeContent_sink_unchanged f' C' G _
          (by rw [hdigest]; exact contentHasChanged_set reg G _)]
        exact ⟨rfl, rfl⟩

/-- Witness for C2 amended: the empty content, then one byte, for group `db`. -/
theorem writeContent_rewrites_on_digest_change_witness :
    sha256.Sum [0x61] ≠ sha256.Sum [] ∧
    (writeContent okSink [0x61] "db"
      (writeContent okSink [] "db" GoMap.empty).prevFileChecksums).writes = [[0x61]] :=
  ⟨by decide, (writeContent_rewrites_on_digest_change GoMap.empty "db" [] [0x61] okSink okSink
    (by simp [okSink]) (by simp [okSink]) rfl (by decide)).1 (by decide)⟩

/-- C3 (write failure leaves the registry alone). For every registry, group name, content and
sink other than `io.Discard`: when `writeContent` attempts the write and `Write` returns an
error, `writeContent` returns that error, the registry after the call equals the registry before
it (so the group's entry is what it was, present or absent), and a following `writeContent` with
the same content and group on any sink other than `io.Discard` calls `Write` again. -/
theorem writeContent_write_error (reg : GoMap checksum) (G : String) (C : List Byte)
    (w : Writer) (e : Error) (hw : w ≠ Writer.Discard)
    (hattempt : (writeContent w C G reg).writes = [C]) (herr : w.Write C = some e) :
    (writeContent w C G reg).err = some e ∧
    (writeContent w C G reg).prevFileChecksums = reg ∧
    (writeContent w C G reg).prevFileChecksums G = reg G ∧
    ∀ w' : Writer, w' ≠ Writer.Discard →
      (writeContent w' C G (writeContent w C G reg).prevFileChecksums).writes = [C] := by
  cases w with
  | Discard => exact absurd rfl hw
  | sink f =>
    have hc := changed_of_wrote f C G reg hattempt
    rw [writeContent_sink_changed_err f C G reg hc e herr]
    refine ⟨rfl, rfl, rfl, ?_⟩
    intro w' hw'
    cases w' with
    | Discard => exact absurd rfl hw'
    | sink f' =>
      cases hf : f' C with
      | none => rw [writeContent_sink_changed_ok f' C G reg hc hf]
      | some e' => rw [writeContent_sink_changed_err f' C G reg hc e' hf]

/-- Witness for C3: a first write for group `db` into a sink that fails with `disk full`. -/
theorem writeContent_write_error_witness :
    (writeContent (failSink "disk full") [1, 2] "db" GoMap.empty).writes = [[1, 2]] ∧
    (writeContent (failSink "disk full") [1, 2] "db" GoMap.empty).err = some "disk full" :=
  ⟨by decide, (writeContent_write_error GoMap.empty "db" [1, 2] (failSink "disk full")
    "disk full" (by simp [failSink]) (by decide) rfl).1⟩

/-- Registry after a sequence of `writeContent` calls on `io.Discard` for one group. -/
theorem discard_calls_registry (G : String) (Cs : List (List Byte)) (reg : GoMap checksum) :
    Cs.foldl (fun r C => (writeContent Writer.Discard C G r).prevFileChecksums) reg = reg := by
  induction Cs generalizing reg with
  | nil => rfl
  | cons C Cs ih => exact ih reg

/-- C4 (null-sink transparency). On `io.Discard`, for every registry, group name and content,
`writeContent` calls `Write` exactly once, with the whole content, returns what `Write` returned,
logs nothing and leaves the registry unchanged; a second identical call again calls `Write` with
the content; and when the group has no entry, any number of such calls for the group, with any
contents, leaves it without one. -/
theorem writeContent_discard (reg : GoMap checksum) (G : String) (C : List Byte) :
    (writeContent Writer.Discard C G reg).writes = [C] ∧
    (writeContent Writer.Discard C G reg).err = Writer.Discard.Write C ∧
    (writeContent Writer.Discard C G reg).prevFileChecksums = reg ∧
    (writeContent Writer.Discard C G reg).logs = [] ∧
    (writeContent Writer.Discard C G
      (writeContent Writer.Discard C G reg).prevFileChecksums).writes = [C] ∧
    (reg G = none → ∀ Cs : List (List Byte),
      (Cs.foldl (fun r C' => (writeContent Writer.Discard C' G r).prevFileChecksums) reg) G
        = none) :=
  ⟨rfl, rfl, rfl, rfl, rfl, fun h Cs => by rw [discard_calls_registry G Cs reg]; exact h⟩

/-- Witness for C4: three calls on `io.Discard` for group `db` from the empty registry. -/
theorem writeContent_discard_witness :
    ([[1], [1], [2]].foldl
      (fun r C' => (writeContent Writer.Discard C' "db" r).prevFileChecksums) GoMap.empty) "db"
      = none :=
  (writeContent_discard GoMap.empty "db" [1]).2.2.2.2.2 rfl [[1], [1], [2]]

/-! ## The registry invariant -/

theorem registryInv_start : RegistryInv Process.start := fun _ => rfl

theorem registryInv_step (p : Process) (c : Call) (h : RegistryInv p) :
    RegistryInv (p.step c) := by
  obtain ⟨w, C, G⟩ := c
  intro G'
  cases w with
  | Discard =>
    simpa [Process.step, writeContent, Writer.isDiscard, lastCommitted, List.find?] using h G'
  | sink f =>
    cases hc : contentHasChanged p.prevFileChecksums G (sha256.Sum C) with
    | false =>
      simpa [Process.step, writeContent_sink_unchanged f C G _ hc] using h G'
    | true =>
      cases hf : f C with
      | some e =>
        simpa [Process.step, writeContent_sink_changed_err f C G _ hc e hf, Writer.Write, hf,
          lastCommitted, List.find?] using h G'
      | none =>
        by_cases hG : G = G'
        · subst hG
          simp [Process.step, writeContent_sink_changed_ok f C G _ hc hf, Writer.Write, hf,
            lastCommitted, List.find?, Writer.isDiscard, GoMap.set]
        · have hG' : ¬ G' = G := fun h' => hG h'.symm
          simpa [Process.step, writeContent_sink_changed_ok f C G _ hc hf, Writer.Write, hf,
            lastCommitted, List.find?, Writer.isDiscard, GoMap.set, hG, hG'] using h G'

theorem registryInv_foldl (calls : List Call) (p : Process) (h : RegistryInv p) :
    RegistryInv (calls.foldl Process.step p) := by
  induction calls generalizing p with
  | nil => exact h
  | cons c cs ih => exact ih (p.step c) (registryInv_step p c h)

/-- C5 as stated fails: after a write of the empty content for group `db` on an accepting sink
and then a write of one byte for `db` on `io.Discard`, the entry for `db` is the digest of the
empty content, while the content most recently written for `db` is the one byte, whose digest
is different. -/
theorem registry_entry_not_last_written :
    (run [⟨okSink, [], "db"⟩, ⟨Writer.Discard, [0x61], "db"⟩]).prevFileChecksums "db"
      = some (sha256.Sum []) ∧
    lastWritten "db" (run [⟨okSink, [], "db"⟩, ⟨Writer.Discard, [0x61], "db"⟩]).trace
      = some [0x61] ∧
    sha256.Sum [] ≠ sha256.Sum [0x61] := by
  refine ⟨by decide, by decide, by decide⟩

/-- C5 (registry invariant), amended. In every state reached from the empty registry by any
sequence of `writeContent` calls (any groups, contents and sinks, with `Write` succeeding or
failing), for every group, the registry entry is the SHA-256 digest of the content of the most
recent `Write` for the group that succeeded on a sink other than `io.Discard`, and the group has
no entry when there was no such write. -/
theorem registry_entry_is_last_committed (calls : List Call) (G : String) :
    (run calls).prevFileChecksums G = (lastCommitted G (run calls).trace).map sha256.Sum :=
  registryInv_foldl calls Process.start registryInv_start G

/-! ## Template bindings and the `secret` helper -/

theorem foldl_set_lookup (L : List Secret) (m : GoMap Secret) (a : String) :
    (L.foldl (fun m s => m.set s.Alias s) m) a
      = ((L.filter fun s => s.Alias = a).getLast?).orElse fun _ => m a := by
  induction L using List.reverseRecOn with
  | nil => simp
  | append_singleton L s ih =>
    rw [List.foldl_append, List.filter_append]
    by_cases h : s.Alias = a
    · simp [GoMap.set, h]
    · have h' : ¬ a = s.Alias := fun e => h e.symm
      simp [GoMap.set, h, h', ih]

theorem secretsMap_eq (L : List Secret) (a : String) :
    secretsMap L a = (L.filter fun s => s.Alias = a).getLast? := by
  rw [secretsMap, foldl_set_lookup]
  cases (L.filter fun s => s.Alias = a).getLast? <;> rfl

theorem secretsMap_isSome (L : List Secret) (a : String) :
    (secretsMap L a).isSome ↔ ∃ s ∈ L, s.Alias = a := by
  rw [secretsMap_eq]
  constructor
  · intro h
    obtain ⟨s, hs⟩ := Option.isSome_iff_exists.mp h
    have hmem := List.mem_of_getLast?_eq_some hs
    rw [List.mem_filter] at hmem
    exact ⟨s, hmem.1, by simpa using hmem.2⟩
  · rintro ⟨s, hs, rfl⟩
    have hne : (L.filter fun t => t.Alias = s.Alias) ≠ [] :=
      List.ne_nil_of_mem (List.mem_filter.mpr ⟨hs, by simp⟩)
    cases hl : (L.filter fun t => t.Alias = s.Alias).getLast? with
    | none => exact absurd (List.getLast?_eq_none_iff.mp hl) hne
    | some t => rfl

theorem secretsMap_mem (L : List Secret) (a : String) (s : Secret) (h : secretsMap L a = some s) :
    s ∈ L ∧ s.Alias = a := by
  rw [secretsMap_eq] at h
  have hmem := List.mem_of_getLast?_eq_some h
  rw [List.mem_filter] at hmem
  exact ⟨hmem.1, by simpa using hmem.2⟩

/-- C8 (template binding views). For every secret list, the sequence view of the data that
`pushToWriter` renders against is the list itself; the mapping view has an entry for an alias
exactly when some secret of the list has that alias, and the entry is the last element of the
list with that alias; for the empty list the sequence view is empty and the mapping view has no
entry. -/
theorem tplData_views (L : List Secret) :
    (tplData L).SecretsArray = L ∧
    (∀ a : String, ((tplData L).SecretsMap a).isSome ↔ ∃ s ∈ L, s.Alias = a) ∧
    (∀ a : String, (tplData L).SecretsMap a = (L.filter fun s => s.Alias = a).getLast?) ∧
    (tplData []).SecretsArray = [] ∧
    (∀ a : String, (tplData []).SecretsMap a = none) :=
  ⟨rfl, secretsMap_isSome L, secretsMap_eq L, rfl, fun _ => rfl⟩

/-! ### `%q` -/

theorem flatMap_verbatim (E : Env) (cs : List Char)
    (h : ∀ c ∈ cs, c ≠ '"' ∧ c ≠ '\\' ∧ IsPrint E c = true) :
    cs.flatMap (appendEscapedRune E) = cs := by
  induction cs with
  | nil => rfl
  | cons c cs ih =>
    obtain ⟨h1, h2, h3⟩ := h c (List.mem_cons_self c cs)
    have hc : appendEscapedRune E c = [c] := by simp [appendEscapedRune, h1, h2, h3]
    rw [List.flatMap_cons, hc, ih fun d hd => h d (List.mem_cons_of_mem c hd)]
    rfl

theorem Quote_verbatim (E : Env) (s : String) (h : Verbatim E s) :
    Quote E s = ⟨'"' :: (s.data ++ ['"'])⟩ := by
  rw [Quote, flatMap_verbatim E s.data h]

theorem contains_quoted (E : Env) (pre post s : String) :
    Contains (pre ++ Quote E s ++ post) (Quote E s) := by
  unfold Contains
  simp only [String.data_append]
  exact List.infix_append _ _ _

theorem contains_verbatim (E : Env) (pre post s : String) (h : Verbatim E s) :
    Contains (pre ++ Quote E s ++ post) s := by
  unfold Contains
  rw [Quote_verbatim E s h]
  simp only [String.data_append]
  refine ⟨pre.data ++ ['"'], ['"'] ++ post.data, ?_⟩
  simp

/-- C7 as stated fails: for the alias `db"pw`, absent from the list, the failure message of the
`secret` helper quotes the alias with its double quote escaped and does not contain the alias
itself. -/
theorem secret_message_lacks_alias :
    secret (fragment.env noLibrary) (secretsMap [⟨"user", "alice"⟩]) "db\"pw"
      = .error "secret alias \"db\\\"pw\" not present in specified secrets for group" ∧
    ¬ Contains "secret alias \"db\\\"pw\" not present in specified secrets for group" "db\"pw" := by
  refine ⟨rfl, by decide⟩

/-- C7 (the `secret` helper), amended. For every secret list and alias: when some secret of the
list has the alias, `secret` returns the value of one of them (the last); it fails exactly when
none has; the failure message then is `secret alias`, the alias as `%q` prints it, and
`not present in specified secrets for group`, so it contains the quoted alias, and it contains
the alias itself whenever the alias consists of printable characters other than the double
quote and the backslash. -/
theorem secret_helper (E : Env) (L : List Secret) (a : String) :
    ((∃ s ∈ L, s.Alias = a) →
      ∃ s ∈ L, s.Alias = a ∧ (L.filter fun t => t.Alias = a).getLast? = some s ∧
        secret E (secretsMap L) a = .ok s.Value) ∧
    ((∃ msg, secret E (secretsMap L) a = .error msg) ↔ ¬ ∃ s ∈ L, s.Alias = a) ∧
    ((¬ ∃ s ∈ L, s.Alias = a) →
      secret E (secretsMap L) a
        = .error ("secret alias " ++ Quote E a ++ " not present in specified secrets for group") ∧
      Contains ("secret alias " ++ Quote E a ++ " not present in specified secrets for group")
        (Quote E a) ∧
      (Verbatim E a →
        Contains ("secret alias " ++ Quote E a ++ " not present in specified secrets for group")
          a)) := by
  cases hm : secretsMap L a with
  | none =>
    have hno : ¬ ∃ s ∈ L, s.Alias = a := by
      rw [← secretsMap_isSome, hm]; simp
    refine ⟨fun h => absurd h hno, ⟨fun _ => hno, fun _ => ⟨_, by simp [secret, hm]; rfl⟩⟩, ?_⟩
    intro _
    exact ⟨by simp [secret, hm], contains_quoted E _ _ a, contains_verbatim E _ _ a⟩
  | some s =>
    have hs := secretsMap_mem L a s hm
    have hex : ∃ s ∈ L, s.Alias = a := ⟨s, hs.1, hs.2⟩
    refine ⟨fun _ => ⟨s, hs.1, hs.2, by rw [← secretsMap_eq, hm], by simp [secret, hm]⟩, ?_,
      fun h => absurd hex h⟩
    constructor
    · rintro ⟨msg, h⟩
      simp [secret, hm] at h
    · intro h
      exact absurd hex h

/-- Witness for C7 amended: the alias `pw` is looked up in a list that has it twice, and the
alias `missing` in a list that lacks it. -/
theorem secret_helper_witness :
    (∃ s ∈ [(⟨"pw", "old"⟩ : Secret), ⟨"user", "alice"⟩, ⟨"pw", "new"⟩], s.Alias = "pw" ∧
      ([(⟨"pw", "old"⟩ : Secret), ⟨"user", "alice"⟩, ⟨"pw", "new"⟩].filter
        fun t => t.Alias = "pw").getLast? = some s ∧
      secret (fragment.env noLibrary)
        (secretsMap [⟨"pw", "old"⟩, ⟨"user", "alice"⟩, ⟨"pw", "new"⟩]) "pw" = .ok s.Value) ∧
    Contains
      ("secret alias " ++ Quote (fragment.env noLibrary) "missing"
        ++ " not present in specified secrets for group") "missing" :=
  ⟨(secret_helper (fragment.env noLibrary)
      [⟨"pw", "old"⟩, ⟨"user", "alice"⟩, ⟨"pw", "new"⟩] "pw").1 ⟨⟨"pw", "old"⟩, by simp, rfl⟩,
   ((secret_helper (fragment.env noLibrary) [⟨"user", "alice"⟩] "missing").2.2 (by decide)).2.2
      (by decide)⟩

/-! ## Rendering and the orchestrator -/

/-- C6 (a render failure causes no write). For every environment, sink, group name, template
text, secret list and registry: when parsing the template fails, or it parses and executing it
fails (as it does when the `secret` helper panics on an unknown alias), `pushToWriter` returns
that error, calls the sink's `Write` zero times and leaves the registry unchanged. -/
theorem pushToWriter_render_failure (E : Env) (writer : Writer) (groupName groupTemplate : String)
    (groupSecrets : List Secret) (reg : GoMap checksum) (e : Error)
    (hfail : E.Parse groupName (funcs E (secretsMap groupSecrets)) groupTemplate = .error e ∨
      ∃ tpl, E.Parse groupName (funcs E (secretsMap groupSecrets)) groupTemplate = .ok tpl ∧
        (renderFile E tpl (tplData groupSecrets)).2 = some e) :
    (pushToWriter E writer groupName groupTemplate groupSecrets reg).err = some e ∧
    (pushToWriter E writer groupName groupTemplate groupSecrets reg).writes = [] ∧
    (pushToWriter E writer groupName groupTemplate groupSecrets reg).prevFileChecksums = reg := by
  rcases hfail with h | ⟨tpl, h, hr⟩
  · simp [pushToWriter, h]
  · cases hrf : renderFile E tpl (tplData groupSecrets) with
    | mk buf err =>
      rw [hrf] at hr
      cases hr
      simp [pushToWriter, h, hrf]

/-- Witness for C6: the template `x={{secret "missing"}}` for group `db` with no secret of that
alias; the error names the alias. -/
theorem pushToWriter_render_failure_witness :
    (pushToWriter (fragment.env noLibrary) okSink "db"
      "x=\x7b\x7bsecret \"missing\"\x7d\x7d" [⟨"user", "alice"⟩] GoMap.empty).err
      = some ("template: db:1:4: executing \"db\" at <secret \"missing\">: error calling secret: "
          ++ "secret alias \"missing\" not present in specified secrets for group") ∧
    (pushToWriter (fragment.env noLibrary) okSink "db"
      "x=\x7b\x7bsecret \"missing\"\x7d\x7d" [⟨"user", "alice"⟩] GoMap.empty).writes = [] :=
  ⟨(pushToWriter_render_failure (fragment.env noLibrary) okSink "db"
      "x=\x7b\x7bsecret \"missing\"\x7d\x7d" [⟨"user", "alice"⟩] GoMap.empty _
      (Or.inr ⟨_, rfl, rfl⟩)).1,
   (pushToWriter_render_failure (fragment.env noLibrary) okSink "db"
      "x=\x7b\x7bsecret \"missing\"\x7d\x7d" [⟨"user", "alice"⟩] GoMap.empty
      ("template: db:1:4: executing \"db\" at <secret \"missing\">: error calling secret: "
        ++ "secret alias \"missing\" not present in specified secrets for group")
      (Or.inr ⟨_, rfl, rfl⟩)).2.1⟩

theorem renderFile_eq (E : Env) (tpl : E.Template) (data : templateData) :
    renderFile E tpl data = E.walkList tpl data (E.Root tpl) (E.vars tpl data) := by
  simp [renderFile, Env.Execute]

theorem walkList_ok (E : Env) (tpl : E.Template) (data : templateData) (nodes : List E.Node)
    (v : E.Vars) (h : (E.walkList tpl data nodes v).2 = none) :
    ∃ w, E.rendering tpl data nodes v = some ((E.walkList tpl data nodes v).1, w) := by
  induction nodes generalizing v with
  | nil => exact ⟨v, rfl⟩
  | cons n rest ih =>
    simp only [Env.walkList, Env.rendering] at h ⊢
    cases hn : E.walk tpl data n v with
    | mk out r =>
      cases r with
      | error e => simp [hn] at h
      | ok v' =>
        simp only [hn] at h ⊢
        obtain ⟨w, hw⟩ := ih v' h
        exact ⟨w, by simp [hw]⟩

theorem walkList_err (E : Env) (tpl : E.Template) (data : templateData) (nodes : List E.Node)
    (v : E.Vars) (e : Error) (h : (E.walkList tpl data nodes v).2 = some e) :
    E.rendering tpl data nodes v = none ∧
    ∃ done failing rest pre w out, nodes = done ++ failing :: rest ∧
      E.rendering tpl data done v = some (pre, w) ∧
      E.walk tpl data failing w = (out, .error e) ∧
      (E.walkList tpl data nodes v).1 = pre ++ out := by
  induction nodes generalizing v with
  | nil => simp [Env.walkList] at h
  | cons n rest ih =>
    simp only [Env.walkList, Env.rendering] at h ⊢
    cases hn : E.walk tpl data n v with
    | mk out r =>
      cases r with
      | error e' =>
        simp only [hn] at h ⊢
        cases h
        exact ⟨trivial, [], n, rest, [], v, out, rfl, rfl, hn, rfl⟩
      | ok v' =>
        simp only [hn] at h ⊢
        obtain ⟨hr, done, failing, rest', pre, w, out', hnodes, hdone, hfail, hbuf⟩ := ih v' h
        refine ⟨by simp [hr], n :: done, failing, rest', out ++ pre, w, out', ?_, ?_, hfail, ?_⟩
        · rw [hnodes]; rfl
        · simp [Env.rendering, hn, hdone]
        · rw [hbuf, List.append_assoc]

/-- Whatever the library behind it, parsing `user={{secret "missing"}}` for group `db` and
rendering it against an empty secret list returns the five bytes of `user=` together with the
error of the failed call. -/
theorem partial_output_any_library (lib : Env) :
    ∃ tpl : (fragment.env lib).Template,
      (fragment.env lib).Parse "db" (funcs (fragment.env lib) (secretsMap []))
        "user=\x7b\x7bsecret \"missing\"\x7d\x7d" = .ok tpl ∧
      (renderFile (fragment.env lib) tpl (tplData [])).2
        = some ("template: db:1:7: executing \"db\" at <secret \"missing\">: error calling "
            ++ "secret: secret alias \"missing\" not present in specified secrets for group") ∧
      (renderFile (fragment.env lib) tpl (tplData [])).1 = [117, 115, 101, 114, 61] :=
  ⟨_, rfl, rfl, rfl⟩

/-- C9 as stated fails: for the template `user={{secret "missing"}}` and an empty secret list,
`renderFile` returns the error of the failed `secret` call together with a buffer that holds
the five bytes of `user=`, rendered before the failure. -/
theorem renderFile_partial_output :
    ∃ tpl : (fragment.env noLibrary).Template,
      (fragment.env noLibrary).Parse "db" (funcs (fragment.env noLibrary) (secretsMap []))
        "user=\x7b\x7bsecret \"missing\"\x7d\x7d" = .ok tpl ∧
      (renderFile (fragment.env noLibrary) tpl (tplData [])).2
        = some ("template: db:1:7: executing \"db\" at <secret \"missing\">: error calling "
            ++ "secret: secret alias \"missing\" not present in specified secrets for group") ∧
      (renderFile (fragment.env noLibrary) tpl (tplData [])).1 = [117, 115, 101, 114, 61] :=
  partial_output_any_library noLibrary

/-- C9 (the renderer's buffer), amended. For every environment, parsed template and template
data: when `renderFile` returns no error, the buffer is the complete rendering, the output of
every node of the template in order; when it returns a non-nil error, the template has no
complete rendering and the buffer holds the complete rendering of the nodes that precede the
failing one followed by what the failing node wrote before it failed, which may be
non-empty. -/
theorem renderFile_buffer (E : Env) (tpl : E.Template) (data : templateData) :
    ((renderFile E tpl data).2 = none →
      ∃ w, E.rendering tpl data (E.Root tpl) (E.vars tpl data)
        = some ((renderFile E tpl data).1, w)) ∧
    (∀ e, (renderFile E tpl data).2 = some e →
      E.rendering tpl data (E.Root tpl) (E.vars tpl data) = none ∧
      ∃ done failing rest pre w out, E.Root tpl = done ++ failing :: rest ∧
        E.rendering tpl data done (E.vars tpl data) = some (pre, w) ∧
        E.walk tpl data failing w = (out, .error e) ∧
        (renderFile E tpl data).1 = pre ++ out) := by
  rw [renderFile_eq]
  exact ⟨walkList_ok E tpl data _ _, fun e => walkList_err E tpl data _ _ e⟩

/-- Witness for C9 amended: the parsed template `user={{secret "user"}}` renders completely
against a list that has the alias. -/
theorem renderFile_buffer_witness :
    ∃ w, (fragment.env noLibrary).rendering
        (.inl ⟨"db", funcs (fragment.env noLibrary) (secretsMap [⟨"user", "alice"⟩]),
          [.text "user=", .action (.call 1 7 "secret" (.str "\"user\"" "user"))]⟩)
        (tplData [⟨"user", "alice"⟩])
        [.inl (.text "user="), .inl (.action (.call 1 7 "secret" (.str "\"user\"" "user")))]
        none
      = some (utf8 "user=alice", w) :=
  (renderFile_buffer (fragment.env noLibrary)
    (.inl ⟨"db", funcs (fragment.env noLibrary) (secretsMap [⟨"user", "alice"⟩]),
      [.text "user=", .action (.call 1 7 "secret" (.str "\"user\"" "user"))]⟩)
    (tplData [⟨"user", "alice"⟩])).1 rfl

/-! ## The sink factory -/

set_option maxRecDepth 100000

theorem append_ne_of_char (p q x y : String) (n : Nat) (c d : Char)
    (hp : p.data[n]? = some c) (hq : q.data[n]? = some d) (hcd : c ≠ d) :
    p ++ x ≠ q ++ y := by
  intro h
  have hdata : (p ++ x).data[n]? = (q ++ y).data[n]? := by rw [h]
  have hn : n < p.data.length := by
    rcases Nat.lt_or_ge n p.data.length with h' | h'
    · exact h'
    · rw [List.getElem?_eq_none h'] at hp; cases hp
  have hm : n < q.data.length := by
    rcases Nat.lt_or_ge n q.data.length with h' | h'
    · exact h'
    · rw [List.getElem?_eq_none h'] at hq; cases hq
  rw [String.data_append, String.data_append, List.getElem?_append_left hn,
    List.getElem?_append_left hm, hp, hq] at hdata
  exact hcd (Option.some.inj hdata)

theorem factory_messages_distinct (E : Env) (path failed e1 e2 e3 : String) :
    "unable to mkdir when opening file to write at " ++ Quote E path ++ ": "
        ++ (PathError.mk "mkdir" failed e1).Error
      ≠ "unable to open file to write at " ++ Quote E path ++ ": "
        ++ (PathError.mk "open" path e2).Error ∧
    "unable to mkdir when opening file to write at " ++ Quote E path ++ ": "
        ++ (PathError.mk "mkdir" failed e1).Error
      ≠ "unable to create atomic writer: " ++ e3 ∧
    "unable to open file to write at " ++ Quote E path ++ ": "
        ++ (PathError.mk "open" path e2).Error
      ≠ "unable to create atomic writer: " ++ e3 := by
  refine ⟨?_, ?_, ?_⟩
  · rw [String.append_assoc, String.append_assoc, String.append_assoc, String.append_assoc]
    exact append_ne_of_char _ _ _ _ 10 'm' 'o' (by decide) (by decide) (by decide)
  · rw [String.append_assoc, String.append_assoc]
    exact append_ne_of_char _ _ _ _ 10 'm' 'c' (by decide) (by decide) (by decide)
  · rw [String.append_assoc, String.append_assoc]
    exact append_ne_of_char _ _ _ _ 10 'o' 'c' (by decide) (by decide) (by decide)

theorem contains_open_path (E : Env) (path e : String) :
    Contains ("unable to open file to write at " ++ Quote E path ++ ": "
      ++ (PathError.mk "open" path e).Error) path := by
  unfold Contains PathError.Error
  simp only [String.data_append]
  refine ⟨"unable to open file to write at ".data ++ (Quote E path).data ++ ": ".data
    ++ "open".data ++ " ".data, ": ".data ++ e.data, ?_⟩
  simp

/-- Documented values of `filepath.Dir` and `filepath.Clean`. -/
theorem Dir_examples :
    Dir "/foo/bar/baz.js" = "/foo/bar" ∧ Dir "/foo/bar/baz/" = "/foo/bar/baz" ∧
    Dir "/dirty//path///" = "/dirty/path" ∧ Dir "dev.txt" = "." ∧ Dir "../todo.txt" = ".." ∧
    Dir ".." = "." ∧ Dir "/" = "/" ∧ Dir "" = "." ∧
    Clean "abc/def/../../../ghi/jkl/../../../mno".data = "../../mno".data ∧
    Clean "/abc/def/../../..".data = "/".data ∧ Clean "abc//./../def".data = "def".data := by
  decide

/-- C10 as stated fails: when creating the directory of `/conjur/my"db".yaml` fails because
`/conjur` may not be made, the error of the factory quotes the path with its double quotes
escaped and does not contain the path given to the factory. -/
theorem factory_message_lacks_path :
    (openFileAsWriteCloser (fragment.env noLibrary)
      (scriptedFS (some ("/conjur", "permission denied")) none none)
      "/conjur/my\"db\".yaml" 0o600 []).result
      = .error ("unable to mkdir when opening file to write at \"/conjur/my\\\"db\\\".yaml\": "
          ++ "mkdir /conjur: permission denied") ∧
    ¬ Contains ("unable to mkdir when opening file to write at \"/conjur/my\\\"db\\\".yaml\": "
        ++ "mkdir /conjur: permission denied") "/conjur/my\"db\".yaml" := by
  refine ⟨rfl, by decide⟩

/-- C10 (failure reporting of the sink factory), amended. For every path, permission mode and
file system, `openFileAsWriteCloser` returns no sink and an error in each of the three cases:
when creating the directory fails, nothing else is attempted; when the probe open fails, the
atomic writer is not constructed; and when constructing the atomic writer fails. The three
messages are pairwise different. The directory-creation message carries the target path as
`%q` prints it, hence the path itself whenever it consists of printable characters other than
the double quote and the backslash; the probe-open message carries the quoted path and contains
the path given to the factory. -/
theorem openFileAsWriteCloser_failures {σ W : Type} (E : Env) (fs : FileSystem σ W)
    (path : String) (permissions : FileMode) (s : σ) :
    (∀ failed e s1, fs.MkdirAll (Dir path) ModePerm s = (some (failed, e), s1) →
      (openFileAsWriteCloser E fs path permissions s).result
        = .error ("unable to mkdir when opening file to write at " ++ Quote E path ++ ": "
            ++ (PathError.mk "mkdir" failed e).Error) ∧
      (openFileAsWriteCloser E fs path permissions s).state = s1 ∧
      (openFileAsWriteCloser E fs path permissions s).ops = [.MkdirAll (Dir path) ModePerm]) ∧
    (∀ e s1 s2, fs.MkdirAll (Dir path) ModePerm s = (none, s1) →
      fs.OpenFile path [.O_WRONLY, .O_CREATE] permissions s1 = (some e, s2) →
      (openFileAsWriteCloser E fs path permissions s).result
        = .error ("unable to open file to write at " ++ Quote E path ++ ": "
            ++ (PathError.mk "open" path e).Error) ∧
      (openFileAsWriteCloser E fs path permissions s).state = s2 ∧
      (openFileAsWriteCloser E fs path permissions s).ops
        = [.MkdirAll (Dir path) ModePerm, .OpenFile path [.O_WRONLY, .O_CREATE] permissions]) ∧
    (∀ e s1 s2 s3, fs.MkdirAll (Dir path) ModePerm s = (none, s1) →
      fs.OpenFile path [.O_WRONLY, .O_CREATE] permissions s1 = (none, s2) →
      fs.NewAtomicWriter path permissions (fs.Close path s2) = (.error e, s3) →
      (∃ msg, (openFileAsWriteCloser E fs path permissions s).result = .error msg ∧
        (∀ failed e1 : String,
          msg ≠ "unable to mkdir when opening file to write at " ++ Quote E path ++ ": "
            ++ (PathError.mk "mkdir" failed e1).Error) ∧
        (∀ e2 : String,
          msg ≠ "unable to open file to write at " ++ Quote E path ++ ": "
            ++ (PathError.mk "open" path e2).Error)) ∧
      (openFileAsWriteCloser E fs path permissions s).state = s3 ∧
      (openFileAsWriteCloser E fs path permissions s).ops
        = [.MkdirAll (Dir path) ModePerm, .OpenFile path [.O_WRONLY, .O_CREATE] permissions,
            .Close path, .NewAtomicWriter path permissions]) ∧
    (∀ failed e1 e2 : String,
      "unable to mkdir when opening file to write at " ++ Quote E path ++ ": "
          ++ (PathError.mk "mkdir" failed e1).Error
        ≠ "unable to open file to write at " ++ Quote E path ++ ": "
          ++ (PathError.mk "open" path e2).Error) ∧
    (∀ failed e : String,
      Contains ("unable to mkdir when opening file to write at " ++ Quote E path ++ ": "
        ++ (PathError.mk "mkdir" failed e).Error) (Quote E path) ∧
      (Verbatim E path →
        Contains ("unable to mkdir when opening file to write at " ++ Quote E path ++ ": "
          ++ (PathError.mk "mkdir" failed e).Error) path)) ∧
    (∀ e : String,
      Contains ("unable to open file to write at " ++ Quote E path ++ ": "
        ++ (PathError.mk "open" path e).Error) (Quote E path) ∧
      Contains ("unable to open file to write at " ++ Quote E path ++ ": "
        ++ (PathError.mk "open" path e).Error) path) := by
  refine ⟨?_, ?_, ?_, ?_, ?_, ?_⟩
  · intro failed e s1 h
    simp [openFileAsWriteCloser, h]
  · intro e s1 s2 h1 h2
    simp [openFileAsWriteCloser, h1, h2]
  · intro e s1 s2 s3 h1 h2 h3
    refine ⟨⟨"unable to create atomic writer: " ++ e, ?_, ?_, ?_⟩, ?_, ?_⟩
    · simp [openFileAsWriteCloser, h1, h2, h3]
    · intro failed e1 h
      exact (factory_messages_distinct E path failed e1 e1 e).2.1 h.symm
    · intro e2 h
      exact (factory_messages_distinct E path path e2 e2 e).2.2 h.symm
    · simp [openFileAsWriteCloser, h1, h2, h3]
    · simp [openFileAsWriteCloser, h1, h2, h3]
  · intro failed e1 e2
    exact (factory_messages_distinct E path failed e1 e2 e2).1
  · intro failed e
    rw [String.append_assoc _ ": " _]
    exact ⟨contains_quoted E _ _ path, contains_verbatim E _ _ path⟩
  · intro e
    refine ⟨?_, contains_open_path E path e⟩
    rw [String.append_assoc _ ": " _]
    exact contains_quoted E _ _ path

/-- Witness for C10 amended: the probe open of `/conjur/secrets/db.yaml` is refused. -/
theorem openFileAsWriteCloser_failures_witness :
    (openFileAsWriteCloser (fragment.env noLibrary)
      (scriptedFS none (some "permission denied") none)
      "/conjur/secrets/db.yaml" 0o600 []).result
      = .error ("unable to open file to write at " ++ Quote (fragment.env noLibrary)
          "/conjur/secrets/db.yaml" ++ ": "
          ++ (PathError.mk "open" "/conjur/secrets/db.yaml" "permission denied").Error) ∧
    (openFileAsWriteCloser (fragment.env noLibrary)
      (scriptedFS none (some "permission denied") none)
      "/conjur/secrets/db.yaml" 0o600 []).ops
      = [.MkdirAll (Dir "/conjur/secrets/db.yaml") ModePerm,
          .OpenFile "/conjur/secrets/db.yaml" [.O_WRONLY, .O_CREATE] 0o600] :=
  ⟨((openFileAsWriteCloser_failures (fragment.env noLibrary)
      (scriptedFS none (some "permission denied") none)
      "/conjur/secrets/db.yaml" 0o600 []).2.1 "permission denied"
      [.MkdirAll "/conjur/secrets" ModePerm]
      [.MkdirAll "/conjur/secrets" ModePerm,
        .OpenFile "/conjur/secrets/db.yaml" [.O_WRONLY, .O_CREATE] 0o600] rfl rfl).1,
   ((openFileAsWriteCloser_failures (fragment.env noLibrary)
      (scriptedFS none (some "permission denied") none)
      "/conjur/secrets/db.yaml" 0o600 []).2.1 "permission denied"
      [.MkdirAll "/conjur/secrets" ModePerm]
      [.MkdirAll "/conjur/secrets" ModePerm,
        .OpenFile "/conjur/secrets/db.yaml" [.O_WRONLY, .O_CREATE] 0o600] rfl rfl).2.2⟩

/-! ## An end-to-end scenario -/

/-- Two secrets rendered for group `db` into an accepting sink: the bytes written and the
registry entry left. -/
theorem scenario_S1 :
    (pushToWriter (fragment.env noLibrary) okSink "db"
      "user=\x7b\x7bsecret \"user\"\x7d\x7d\npw=\x7b\x7bsecret \"pw\"\x7d\x7d\n"
      [⟨"user", "alice"⟩, ⟨"pw", "s3cr3t"⟩] GoMap.empty).writes
      = [utf8 "user=alice\npw=s3cr3t\n"] ∧
    (pushToWriter (fragment.env noLibrary) okSink "db"
      "user=\x7b\x7bsecret \"user\"\x7d\x7d\npw=\x7b\x7bsecret \"pw\"\x7d\x7d\n"
      [⟨"user", "alice"⟩, ⟨"pw", "s3cr3t"⟩] GoMap.empty).prevFileChecksums "db"
      = some (sha256.Sum (utf8 "user=alice\npw=s3cr3t\n")) := by
  refine ⟨by decide, by decide⟩

end pushtofile
